import Mathlib

/-!
Shallow embedding of the Intcode virtual machine of jmpesp/advent-of-code-2019
(src/src/bin/day11.rs and src/src/bin/day15.rs), together with theorems
settling the specification claims about it.

Conventions of the embedding:
* Rust `i64` values are modelled as unbounded `Int` (none of the verified
  scenarios comes near the 64-bit range); Rust `/` and `%` on `i64` are
  truncating, so they are rendered as `Int.tdiv` and `Int.tmod`.
* A Rust `panic!` (negative memory address, write in immediate mode,
  out-of-bounds mode-array index, unrecognized opcode) is modelled by an
  `Option` result of `none`.
* The `HashMap<i64, i64>` backing `Memory` is modelled as an association
  list `List (Int × Int)` with at most one binding per key.
* The mpsc channels are modelled as FIFO queues (`List Int`); `try_recv`
  pops the front element if any.  The engine thread is scheduled
  deterministically: before the driver observes a handle, the engine has
  run as far as it can (until it halts or blocks on an empty input queue),
  which is the schedule under which the repository's tests pass.
-/

namespace AoC2019

/-- The three addressing modes of day11.rs / day15.rs (`enum ParameterMode`). -/
inductive ParameterMode where
  | positionMode
  | immediateMode
  | relativeMode
  deriving DecidableEq, Repr

/-- `impl Default for ParameterMode` returns `PositionMode`. -/
def ParameterMode.default : ParameterMode := ParameterMode.positionMode

/-- The `[ParameterMode; 4]` array that `get_parameter_modes_from_opcode`
fills (one field per array slot). -/
structure Mode4 where
  m0 : ParameterMode
  m1 : ParameterMode
  m2 : ParameterMode
  m3 : ParameterMode
  deriving DecidableEq, Repr

/-- `Default::default()` for the array: every slot `PositionMode`. -/
def Mode4.default : Mode4 :=
  ⟨ParameterMode.default, ParameterMode.default, ParameterMode.default,
    ParameterMode.default⟩

/-- Array read `parameter_mode[i]` (only used with `i < 4` in proofs; the
junk value for other indices is never relevant). -/
def Mode4.get (a : Mode4) (i : Nat) : ParameterMode :=
  match i with
  | 0 => a.m0
  | 1 => a.m1
  | 2 => a.m2
  | _ => a.m3

/-- Array write `parameter_mode[i] = m`: Rust panics when `i` is out of
bounds, hence the `Option`. -/
def Mode4.set (a : Mode4) (i : Nat) (m : ParameterMode) : Option Mode4 :=
  match i with
  | 0 => some ⟨m, a.m1, a.m2, a.m3⟩
  | 1 => some ⟨a.m0, m, a.m2, a.m3⟩
  | 2 => some ⟨a.m0, a.m1, m, a.m3⟩
  | 3 => some ⟨a.m0, a.m1, a.m2, m⟩
  | _ => none

/-- The `while t > 0` loop of `get_parameter_modes_from_opcode`: take the
last decimal digit, store the mode it denotes into slot `i` (digits other
than 0, 1, 2 fall through every `if` and store nothing), divide by 10 and
continue.  The loop variable is positive throughout, so it is carried as a
`Nat`.  `fuel` makes the recursion structural; since `t` strictly
decreases, `fuel = t` at the top call is always enough, so the
fuel-exhausted branch is only reached with `t = 0`. -/
def modesLoop : Nat → Nat → Nat → Mode4 → Option Mode4
  | 0, _, _, arr => some arr
  | fuel + 1, t, i, arr =>
    if t = 0 then some arr
    else
      match
        (if t % 10 = 0 then arr.set i ParameterMode.positionMode
         else if t % 10 = 1 then arr.set i ParameterMode.immediateMode
         else if t % 10 = 2 then arr.set i ParameterMode.relativeMode
         else some arr) with
      | none => none
      | some arr2 => modesLoop fuel (t / 10) (i + 1) arr2

/-- `get_parameter_modes_from_opcode(opcode: i64) -> [ParameterMode; 4]`
(identical in day11.rs and day15.rs).  Called by the engine on
`word / 100`.  A non-positive argument skips the loop and returns the
default array, exactly as the Rust `while t > 0` does. -/
def get_parameter_modes_from_opcode (opcode : Int) : Option Mode4 :=
  if opcode > 0 then modesLoop opcode.toNat opcode.toNat 0 Mode4.default
  else some Mode4.default

/-- Sparse memory: `struct Memory { memory: HashMap<i64, i64> }`, as an
association list with at most one binding per key. -/
structure Memory where
  memory : List (Int × Int)
  deriving DecidableEq, Repr

/-- Insert-or-overwrite into the association list (the effect of
`HashMap::entry(..).or_insert(0)` followed by the assignment). -/
def setPair (l : List (Int × Int)) (a v : Int) : List (Int × Int) :=
  match l with
  | [] => [(a, v)]
  | (k, w) :: rest => if k = a then (a, v) :: rest else (k, w) :: setPair rest a v

/-- `impl Index<i64> for Memory`: panic on a negative address, else the
stored value, `0` when the address was never written. -/
def Memory.read (m : Memory) (a : Int) : Option Int :=
  if a < 0 then none else some ((m.memory.lookup a).getD 0)

/-- `impl IndexMut<i64> for Memory` used as a write target: panic on a
negative address, else create-or-overwrite the slot. -/
def Memory.write (m : Memory) (a v : Int) : Option Memory :=
  if a < 0 then none else some ⟨setPair m.memory a v⟩

/-- `get_value(output, iptr, param_mode, rbase)` of day11.rs / day15.rs:
read the raw operand at `iptr`, then resolve it through the addressing
mode. -/
def get_value (m : Memory) (iptr : Int) (mode : ParameterMode) (rbase : Int) :
    Option Int :=
  match m.read iptr with
  | none => none
  | some param =>
    match mode with
    | ParameterMode.positionMode => m.read param
    | ParameterMode.immediateMode => some param
    | ParameterMode.relativeMode => m.read (param + rbase)

/-- `set_value(output, iptr, param_mode, rbase, v)`: resolve the write
target (never immediate: that arm is a `panic!()`) and store `v`. -/
def set_value (m : Memory) (iptr : Int) (mode : ParameterMode) (rbase v : Int) :
    Option Memory :=
  match m.read iptr with
  | none => none
  | some param =>
    match mode with
    | ParameterMode.positionMode => m.write param v
    | ParameterMode.relativeMode => m.write (param + rbase) v
    | ParameterMode.immediateMode => none

/-- The mutable registers of `intcode_program`: memory, instruction pointer
`iptr`, relative base `rbase`. -/
structure VMState where
  mem : Memory
  ip : Int
  rbase : Int
  deriving DecidableEq, Repr

/-- The `opcode = memory[iptr] % 100` decomposition done at the top of the
engine loop (Rust `%` truncates, hence `Int.tmod`). -/
def instrOpcode (w : Int) : Int := Int.tmod w 100

/-- The `get_parameter_modes_from_opcode(memory[iptr] / 100)` call of the
engine loop (Rust `/` truncates, hence `Int.tdiv`). -/
def instrModes (w : Int) : Option Mode4 :=
  get_parameter_modes_from_opcode (Int.tdiv w 100)

/-- Externally visible events of one engine step: a notification on the
blocked-on-input channel (`wait_output.send(0)`, day15.rs only), the
consumption of an input value (`computer_input.recv()`), an output send
(`computer_output.send`), the halt notification (`computer_halted.send(0)`). -/
inductive Ev where
  | waitNote
  | consume (v : Int)
  | output (v : Int)
  | haltNote
  deriving DecidableEq, Repr

/-- Result of executing one instruction. -/
inductive StepRes where
  | next (s : VMState) (ins : List Int) (evs : List Ev)
  | halted (m : Memory) (evs : List Ev)
  | blocked (evs : List Ev)
  deriving DecidableEq, Repr

/-- One iteration of the `loop` of `intcode_program`.  `wait` is `true` for
the day15.rs engine (whose opcode-3 arm first does `wait_output.send(0)`)
and `false` for the day11.rs engine, the only difference between the two.
`ins` is the queue feeding `computer_input`; an empty queue at opcode 3
blocks the engine.  `none` models a panic (negative address, mode-array
overflow, write in immediate mode, unrecognized opcode). -/
def stepVM (wait : Bool) (s : VMState) (ins : List Int) : Option StepRes :=
  match s.mem.read s.ip with
  | none => none
  | some w =>
    match instrModes w with
    | none => none
    | some pm =>
      if instrOpcode w = 1 then
        match get_value s.mem (s.ip + 1) (pm.get 0) s.rbase,
              get_value s.mem (s.ip + 2) (pm.get 1) s.rbase with
        | some i1, some i2 =>
          match set_value s.mem (s.ip + 3) (pm.get 2) s.rbase (i1 + i2) with
          | some m2 => some (StepRes.next ⟨m2, s.ip + 4, s.rbase⟩ ins [])
          | none => none
        | _, _ => none
      else if instrOpcode w = 2 then
        match get_value s.mem (s.ip + 1) (pm.get 0) s.rbase,
              get_value s.mem (s.ip + 2) (pm.get 1) s.rbase with
        | some i1, some i2 =>
          match set_value s.mem (s.ip + 3) (pm.get 2) s.rbase (i1 * i2) with
          | some m2 => some (StepRes.next ⟨m2, s.ip + 4, s.rbase⟩ ins [])
          | none => none
        | _, _ => none
      else if instrOpcode w = 3 then
        match ins with
        | [] => some (StepRes.blocked (if wait then [Ev.waitNote] else []))
        | v :: rest =>
          match set_value s.mem (s.ip + 1) (pm.get 0) s.rbase v with
          | some m2 =>
            some (StepRes.next ⟨m2, s.ip + 2, s.rbase⟩ rest
              ((if wait then [Ev.waitNote] else []) ++ [Ev.consume v]))
          | none => none
      else if instrOpcode w = 4 then
        match get_value s.mem (s.ip + 1) (pm.get 0) s.rbase with
        | some i1 => some (StepRes.next ⟨s.mem, s.ip + 2, s.rbase⟩ ins [Ev.output i1])
        | none => none
      else if instrOpcode w = 5 then
        match get_value s.mem (s.ip + 1) (pm.get 0) s.rbase,
              get_value s.mem (s.ip + 2) (pm.get 1) s.rbase with
        | some i1, some i2 =>
          if i1 ≠ 0 then some (StepRes.next ⟨s.mem, i2, s.rbase⟩ ins [])
          else some (StepRes.next ⟨s.mem, s.ip + 3, s.rbase⟩ ins [])
        | _, _ => none
      else if instrOpcode w = 6 then
        match get_value s.mem (s.ip + 1) (pm.get 0) s.rbase,
              get_value s.mem (s.ip + 2) (pm.get 1) s.rbase with
        | some i1, some i2 =>
          if i1 = 0 then some (StepRes.next ⟨s.mem, i2, s.rbase⟩ ins [])
          else some (StepRes.next ⟨s.mem, s.ip + 3, s.rbase⟩ ins [])
        | _, _ => none
      else if instrOpcode w = 7 then
        match get_value s.mem (s.ip + 1) (pm.get 0) s.rbase,
              get_value s.mem (s.ip + 2) (pm.get 1) s.rbase with
        | some i1, some i2 =>
          match set_value s.mem (s.ip + 3) (pm.get 2) s.rbase
              (if i1 < i2 then 1 else 0) with
          | some m2 => some (StepRes.next ⟨m2, s.ip + 4, s.rbase⟩ ins [])
          | none => none
        | _, _ => none
      else if instrOpcode w = 8 then
        match get_value s.mem (s.ip + 1) (pm.get 0) s.rbase,
              get_value s.mem (s.ip + 2) (pm.get 1) s.rbase with
        | some i1, some i2 =>
          match set_value s.mem (s.ip + 3) (pm.get 2) s.rbase
              (if i1 = i2 then 1 else 0) with
          | some m2 => some (StepRes.next ⟨m2, s.ip + 4, s.rbase⟩ ins [])
          | none => none
        | _, _ => none
      else if instrOpcode w = 9 then
        match get_value s.mem (s.ip + 1) (pm.get 0) s.rbase with
        | some i1 => some (StepRes.next ⟨s.mem, s.ip + 2, s.rbase + i1⟩ ins [])
        | none => none
      else if instrOpcode w = 99 then
        some (StepRes.halted s.mem [Ev.haltNote])
      else
        none

/-- How a (fuelled) engine run ended: at opcode 99, blocked on an empty
input queue at opcode 3, or out of fuel. -/
inductive VMStatus where
  | halted
  | blocked
  | fuelOut
  deriving DecidableEq, Repr

/-- Outcome of running the engine to quiescence. -/
structure RunRes where
  state : VMState
  insLeft : List Int
  evs : List Ev
  status : VMStatus
  deriving DecidableEq, Repr

/-- Run the engine loop for at most `fuel` instructions.  `none` models a
panic of the engine thread. -/
def runVM (wait : Bool) : Nat → VMState → List Int → Option RunRes
  | 0, s, ins => some ⟨s, ins, [], VMStatus.fuelOut⟩
  | fuel + 1, s, ins =>
    match stepVM wait s ins with
    | none => none
    | some (StepRes.blocked evs) => some ⟨s, ins, evs, VMStatus.blocked⟩
    | some (StepRes.halted m evs) => some ⟨⟨m, s.ip, s.rbase⟩, ins, evs, VMStatus.halted⟩
    | some (StepRes.next s2 ins2 evs) =>
      match runVM wait fuel s2 ins2 with
      | none => none
      | some r => some ⟨r.state, r.insLeft, evs ++ r.evs, r.status⟩

/-- The values sent on the output channel during a run, in order. -/
def outsOf (evs : List Ev) : List Int :=
  evs.filterMap fun e =>
    match e with
    | Ev.output v => some v
    | _ => none

/-- The `for i in 0..input.len() { memory[i] = input[i] }` load loop of
`intcode_program`, plus the initial `iptr = ip = 0`, `rbase = 0`. -/
def loadFrom (i : Int) : List Int → List (Int × Int)
  | [] => []
  | v :: rest => (i, v) :: loadFrom (i + 1) rest

/-- Fresh VM state bound to a program image. -/
def initVM (program : List Int) : VMState := ⟨⟨loadFrom 0 program⟩, 0, 0⟩

/-- A driver-side `IntcodeComputer` handle together with the channel
contents: the engine registers, the input queue (fed by `send`), the output
queue (drained by `recv`/`try_recv`), the halt-notification queue (drained
by `halted`), and `done` — whether the engine thread has finished.  The
blocked-on-input channel and its sticky flag (day15.rs) are modelled
separately for the claims about `waiting_on_input`. -/
structure Comp where
  vm : VMState
  inQ : List Int
  outQ : List Int
  haltQ : List Int
  done : Bool
  deriving DecidableEq, Repr

/-- `run_intcode_computer(name, program)`: fresh channels, engine bound to a
copy of the program (the `name` label has no semantic effect). -/
def mkComp (program : List Int) : Comp := ⟨initVM program, [], [], [], false⟩

/-- Let the engine thread run as far as it can: until it halts (sending the
single value `0` on the halt channel, after which the thread is done),
blocks on an empty input queue, or panics (`none`).  This is the
deterministic schedule under which every driver observation happens after
maximal engine progress. -/
def pump (fuel : Nat) (c : Comp) : Option Comp :=
  if c.done then some c
  else
    match runVM false fuel c.vm c.inQ with
    | none => none
    | some r =>
      match r.status with
      | VMStatus.fuelOut => none
      | VMStatus.blocked =>
        some ⟨r.state, r.insLeft, c.outQ ++ outsOf r.evs, c.haltQ, false⟩
      | VMStatus.halted =>
        some ⟨r.state, r.insLeft, c.outQ ++ outsOf r.evs, c.haltQ ++ [0], true⟩

/-- `IntcodeComputer::send`: enqueue on the input channel, never blocks. -/
def sendC (c : Comp) (v : Int) : Comp :=
  { c with inQ := c.inQ ++ [v] }

/-- `IntcodeComputer::halted`: `!self.HaltReceiver.try_recv().is_err()` — a
`try_recv` that consumes the halt value when one is present. -/
def haltedC (fuel : Nat) (c : Comp) : Option (Comp × Bool) :=
  match pump fuel c with
  | none => none
  | some c2 =>
    match c2.haltQ with
    | _ :: rest => some ({ c2 with haltQ := rest }, true)
    | [] => some (c2, false)

/-- `IntcodeComputer::recv`: `self.OutputReceiver.recv().unwrap()` — blocks
until the engine has produced an output; `none` when no output will ever
arrive (the engine halted with an empty output queue — the `unwrap` panics
on the resulting `RecvError` — or blocked forever). -/
def recvC (fuel : Nat) (c : Comp) : Option (Comp × Int) :=
  match pump fuel c with
  | none => none
  | some c2 =>
    match c2.outQ with
    | v :: rest => some ({ c2 with outQ := rest }, v)
    | [] => none

/-- Result of `IntcodeComputer::recv2`, i.e. of a blocking
`mpsc::Receiver::recv()`: a value, or `RecvError` once the channel is empty
and the producing engine is gone (the spec's `ProducerHalted`). -/
inductive RecvOutcome where
  | value (v : Int)
  | producerHalted
  deriving DecidableEq, Repr

/-- `IntcodeComputer::recv2`: blocking receive returning `Result`.  `none`
models the one remaining possibility, blocking forever (engine itself stuck
on input, producing nothing). -/
def recv2C (fuel : Nat) (c : Comp) : Option (Comp × RecvOutcome) :=
  match pump fuel c with
  | none => none
  | some c2 =>
    match c2.outQ with
    | v :: rest => some ({ c2 with outQ := rest }, RecvOutcome.value v)
    | [] =>
      if c2.done then some (c2, RecvOutcome.producerHalted)
      else none

/-- The `loop` of `run_amplifier_chain_feedback` (day11.rs): one round does
four `halted?`-guarded handoffs `ic(k).send(ic(k-1).recv())`, records the
last value produced by `ic4`, and feeds it back to `ic0` after a final
`halted?` check.  Returning `last` when it is still `None` models the
driver's `last_output_from_last_amplifier.unwrap()` panicking.  `rounds` is
loop fuel; `fuel` is per-pump engine fuel. -/
def feedbackLoop (fuel : Nat) :
    Nat → Comp → Comp → Comp → Comp → Comp → Option Int → Option Int
  | 0, _, _, _, _, _, _ => none
  | rounds + 1, c0, c1, c2, c3, c4, last =>
    match haltedC fuel c1 with
    | none => none
    | some (c1, h1) =>
      if h1 then last
      else
        match recvC fuel c0 with
        | none => none
        | some (c0, v0) =>
          let c1 := sendC c1 v0
          match haltedC fuel c2 with
          | none => none
          | some (c2, h2) =>
            if h2 then last
            else
              match recvC fuel c1 with
              | none => none
              | some (c1, v1) =>
                let c2 := sendC c2 v1
                match haltedC fuel c3 with
                | none => none
                | some (c3, h3) =>
                  if h3 then last
                  else
                    match recvC fuel c2 with
                    | none => none
                    | some (c2, v2) =>
                      let c3 := sendC c3 v2
                      match haltedC fuel c4 with
                      | none => none
                      | some (c4, h4) =>
                        if h4 then last
                        else
                          match recvC fuel c3 with
                          | none => none
                          | some (c3, v3) =>
                            let c4 := sendC c4 v3
                            match recvC fuel c4 with
                            | none => none
                            | some (c4, v4) =>
                              let last := some v4
                              match haltedC fuel c0 with
                              | none => none
                              | some (c0, h0) =>
                                if h0 then last
                                else
                                  feedbackLoop fuel rounds
                                    (sendC c0 v4) c1 c2 c3 c4 last

/-- `run_amplifier_chain_feedback(program, p1..p5)`: spawn the five
instances, send each its phase setting, send the initial `0` to `ic0`, and
run the feedback loop. -/
def run_amplifier_chain_feedback (fuel rounds : Nat) (program : List Int)
    (p1 p2 p3 p4 p5 : Int) : Option Int :=
  let c0 := sendC (sendC (mkComp program) p1) 0
  let c1 := sendC (mkComp program) p2
  let c2 := sendC (mkComp program) p3
  let c3 := sendC (mkComp program) p4
  let c4 := sendC (mkComp program) p5
  feedbackLoop fuel rounds c0 c1 c2 c3 c4 none

/-- The mode a decimal digit stands for when the starting slot value is
Position (the decoder's default): digit 1 is Immediate, digit 2 is
Relative, any other digit leaves Position. -/
def digMode (d : Nat) : ParameterMode :=
  if d = 1 then ParameterMode.immediateMode
  else if d = 2 then ParameterMode.relativeMode
  else ParameterMode.positionMode

/-- What one loop iteration of the decoder leaves in slot `i` when the
digit is `d` and the slot previously held `old`: digits 0, 1, 2 overwrite,
every other digit falls through all three `if`s and leaves `old`. -/
def digModeUpd (d : Nat) (old : ParameterMode) : ParameterMode :=
  if d = 0 then ParameterMode.positionMode
  else if d = 1 then ParameterMode.immediateMode
  else if d = 2 then ParameterMode.relativeMode
  else old

/-- Total array write, for stating what `Mode4.set` does on an in-bounds
index (out-of-bounds indices leave the array unchanged). -/
def Mode4.setT (a : Mode4) (i : Nat) (m : ParameterMode) : Mode4 :=
  match i with
  | 0 => ⟨m, a.m1, a.m2, a.m3⟩
  | 1 => ⟨a.m0, m, a.m2, a.m3⟩
  | 2 => ⟨a.m0, a.m1, m, a.m3⟩
  | 3 => ⟨a.m0, a.m1, a.m2, m⟩
  | _ => a

/-- A blocked-on-input notification precedes every input consumption: the
trace contains no `consume` that is not immediately preceded by a
`waitNote`. -/
def goodTrace : List Ev → Bool
  | [] => true
  | Ev.consume _ :: _ => false
  | Ev.waitNote :: Ev.consume _ :: rest => goodTrace rest
  | Ev.waitNote :: rest => goodTrace rest
  | Ev.output _ :: rest => goodTrace rest
  | Ev.haltNote :: rest => goodTrace rest

/-- The part of the day15.rs handle that `waiting_on_input` works on: the
sticky `WaitingOnInput: bool` field and the contents of the
blocked-on-input channel (`WaitReceiver`), a FIFO the engine's opcode-3 arm
pushes `0` onto. -/
structure WaitHandle where
  flag : Bool
  waitQ : List Int
  deriving DecidableEq, Repr

/-- `IntcodeComputer::waiting_on_input` (day15.rs): return `true` at once
when the sticky flag is set; otherwise `try_recv` on the wait channel, and
when a notification is there consume it and latch the flag. -/
def waiting_on_input (h : WaitHandle) : Bool × WaitHandle :=
  if h.flag then (true, h)
  else
    match h.waitQ with
    | _ :: rest => (true, ⟨true, rest⟩)
    | [] => (false, h)

/-- The effect of `IntcodeComputer::send` (day15.rs) on the wait state:
`self.WaitingOnInput = false` (the value itself goes to the input queue,
`sendC`). -/
def sendW (h : WaitHandle) : WaitHandle := ⟨false, h.waitQ⟩

/-- The engine's `wait_output.send(0)` arriving on the handle's wait
channel. -/
def noteW (h : WaitHandle) : WaitHandle := ⟨h.flag, h.waitQ ++ [0]⟩

/-- Driver-side operations on the wait state other than `send`: polling
`waiting_on_input`, or a notification arriving from the engine. -/
inductive WaitOp where
  | poll
  | note
  deriving DecidableEq, Repr

/-- Apply a sequence of send-free operations to the wait state. -/
def applyWaitOps : List WaitOp → WaitHandle → WaitHandle
  | [], h => h
  | WaitOp.poll :: rest, h => applyWaitOps rest (waiting_on_input h).2
  | WaitOp.note :: rest, h => applyWaitOps rest (noteW h)

/-- Two successive `halted()` polls on the same handle, as a driver that
queries the halt signal twice would issue them. -/
def haltedTwice (fuel : Nat) (c : Comp) : Option (Bool × Bool) :=
  match haltedC fuel c with
  | none => none
  | some (c1, b1) =>
    match haltedC fuel c1 with
    | none => none
    | some (_, b2) => some (b1, b2)

/-- Witness memory for C1: address 0 holds the raw operand 5, address 5
holds 42 and address 8 is never written. -/
def memC1 : Memory := ⟨[(0, 5), (5, 42)]⟩

/-- The 16-word self-replicating program of `test_quine` (day11.rs). -/
def quineProgram : List Int :=
  [109, 1, 204, -1, 1001, 100, 1, 100, 1008, 100, 16, 101, 1006, 101, 0, 99]

/-- The 5-amplifier feedback program of `test_amplifier_with_feedback_programs`
(day11.rs). -/
def feedbackProgram : List Int :=
  [3, 26, 1001, 26, -4, 26, 3, 27, 1002, 27, 2, 27, 1, 27, 26, 27, 4, 27,
   1001, 28, -1, 28, 1005, 28, 6, 99, 0, 0, 5]

/-- The handle state of an instance of the program `99` after its engine
thread has halted: the halt channel holds the single fired signal.  This is
`pump 10 (mkComp [99])`. -/
def compHalted99 : Comp := ⟨⟨⟨[(0, 99)]⟩, 0, 0⟩, [], [], [0], true⟩

/-- The same handle once the fired halt signal has been consumed by a
`halted()` poll. -/
def compHalted99Drained : Comp := ⟨⟨⟨[(0, 99)]⟩, 0, 0⟩, [], [], [], true⟩

/-- The handle state of an instance of `104,7,99` (output 7, then halt)
after its engine thread has run to completion: one value on the output
channel, halt signal fired.  This is `pump 10 (mkComp [104, 7, 99])`. -/
def compQuick : Comp := ⟨⟨⟨[(0, 104), (1, 7), (2, 99)]⟩, 2, 0⟩, [], [7], [0], true⟩

/-- The same handle with its output channel drained. -/
def compQuickDrained : Comp := ⟨⟨⟨[(0, 104), (1, 7), (2, 99)]⟩, 2, 0⟩, [], [], [0], true⟩

/-- The outcome of the day15-style engine running `3,0,99` on the input
queue `[5]`: notify the wait channel, consume the 5, halt.  This is
`runVM true 10 (initVM [3, 0, 99]) [5]`. -/
def runWait99 : RunRes :=
  ⟨⟨⟨[(0, 5), (1, 0), (2, 99)]⟩, 2, 0⟩, [],
    [Ev.waitNote, Ev.consume 5, Ev.haltNote], VMStatus.halted⟩

theorem lookup_setPair_self (l : List (Int × Int)) (a v : Int) :
    (setPair l a v).lookup a = some v := by
  induction l with
  | nil => simp [setPair, List.lookup]
  | cons p rest ih =>
    obtain ⟨k, w⟩ := p
    by_cases hk : k = a
    · simp [setPair, hk, List.lookup]
    · simp only [setPair, if_neg hk, List.lookup]
      have : (a == k) = false := by simp [hk]; omega
      simp [this, ih]

theorem lookup_setPair_ne (l : List (Int × Int)) (a v b : Int) (hb : b ≠ a) :
    (setPair l a v).lookup b = l.lookup b := by
  have hba : (b == a) = false := by simpa using hb
  induction l with
  | nil => simp [setPair, List.lookup, hba]
  | cons p rest ih =>
    obtain ⟨k, w⟩ := p
    by_cases hk : k = a
    · simp only [setPair, if_pos hk, List.lookup, hba, hk]
    · simp only [setPair, if_neg hk, List.lookup]
      by_cases hbk : b = k
      · simp [hbk]
      · have hbkf : (b == k) = false := by simpa using hbk
        simp [hbkf, ih]

/-- C3.  Memory read fails on a negative address and otherwise returns the
stored value, or 0 when the address was never written; Memory write fails
the same way on a negative address and otherwise creates or overwrites the
slot, leaving every other address untouched. -/
theorem memory_contract (m : Memory) (a v : Int) :
    (a < 0 → m.read a = none ∧ m.write a v = none) ∧
    (0 ≤ a →
      (∀ x, m.memory.lookup a = some x → m.read a = some x) ∧
      (m.memory.lookup a = none → m.read a = some 0) ∧
      ∃ m2, m.write a v = some m2 ∧ m2.read a = some v ∧
        m2.memory.lookup a = some v ∧
        ∀ b, b ≠ a → m2.memory.lookup b = m.memory.lookup b) := by
  constructor
  · intro ha
    simp [Memory.read, Memory.write, ha]
  · intro ha
    have hna : ¬ a < 0 := by omega
    refine ⟨?_, ?_, ⟨setPair m.memory a v⟩, ?_, ?_, ?_, ?_⟩
    · intro x hx
      simp [Memory.read, hna, hx]
    · intro hx
      simp [Memory.read, hna, hx]
    · simp [Memory.write, hna]
    · simp [Memory.read, hna, lookup_setPair_self]
    · simpa using lookup_setPair_self m.memory a v
    · intro b hb
      simpa using lookup_setPair_ne m.memory a v b hb

/-- C1.  Resolving a parameter whose raw operand is `param`: Position mode
yields the value stored at address `param`, Immediate mode yields `param`
itself, Relative mode yields the value stored at address
`param + rbase`. -/
theorem get_value_resolution (m : Memory) (iptr rbase param : Int)
    (hp : m.read iptr = some param) :
    (∀ x, m.read param = some x →
      get_value m iptr ParameterMode.positionMode rbase = some x) ∧
    get_value m iptr ParameterMode.immediateMode rbase = some param ∧
    (∀ x, m.read (param + rbase) = some x →
      get_value m iptr ParameterMode.relativeMode rbase = some x) := by
  refine ⟨?_, ?_, ?_⟩
  · intro x hx
    simp [get_value, hp, hx]
  · simp [get_value, hp]
  · intro x hx
    simp [get_value, hp, hx]

/-- C1 at a concrete input: with relative base 3, Position mode reads
address 5 (value 42), Immediate mode yields the operand 5, Relative mode
reads address 5 + 3 = 8 (never written, value 0). -/
theorem get_value_resolution_witness :
    get_value memC1 0 ParameterMode.positionMode 3 = some 42 ∧
    get_value memC1 0 ParameterMode.immediateMode 3 = some 5 ∧
    get_value memC1 0 ParameterMode.relativeMode 3 = some 0 := by
  obtain ⟨h1, h2, h3⟩ := get_value_resolution memC1 0 3 5 (by decide)
  exact ⟨h1 42 (by decide), h2, h3 0 (by decide)⟩

/-- C4.  Running the quine program from instruction pointer 0 to halt
produces exactly its own 16 instruction words, in order, on the output
channel. -/
theorem quine_outputs_itself :
    (runVM false 200 (initVM quineProgram) []).map
      (fun r => (outsOf r.evs, r.status)) =
    some (quineProgram, VMStatus.halted) := by
  decide

/-- C9.  Five instances of the feedback program wired in a loop with phase
settings (9, 8, 7, 6, 5) and initial input 0, driven by the
`halted()`-guarded handoff loop of `run_amplifier_chain_feedback`, yield
the final output 139629729. -/
theorem feedback_network_result :
    run_amplifier_chain_feedback 400 12 feedbackProgram 9 8 7 6 5 =
      some 139629729 := by
  decide

/-- C5, counterexample.  `halted()` is not idempotent after the halt signal
has fired: on an instance of the program `99`, the first poll returns
`true` — and consumes the one-shot signal with its `try_recv` — so the
second poll returns `false`, not `true` as the claim states. -/
theorem halted_poll_not_idempotent :
    haltedTwice 10 (mkComp [99]) = some (true, false) ∧
    haltedTwice 10 (mkComp [99]) ≠ some (true, true) := by
  decide

/-- C5 as amended.  Once the engine has reached opcode 99 and the halt
signal has fired (the engine thread is done and the halt channel holds its
single value), the first `halted()` poll returns `true` and consumes the
signal, and the next poll returns `false`. -/
theorem halted_poll_consumes (fuel : Nat) (c : Comp)
    (hdone : c.done = true) (hq : c.haltQ = [0]) :
    haltedC fuel c = some ({ c with haltQ := [] }, true) ∧
    haltedC fuel { c with haltQ := [] } = some ({ c with haltQ := [] }, false) := by
  constructor
  · simp [haltedC, pump, hdone, hq]
  · simp [haltedC, pump, hdone]

/-- C5 amended-claim witness: the instance of the program `99` after its
engine has halted. -/
theorem halted_poll_consumes_witness :
    haltedC 10 compHalted99 = some (compHalted99Drained, true) ∧
    haltedC 10 compHalted99Drained = some (compHalted99Drained, false) := by
  exact halted_poll_consumes 10 compHalted99 rfl rfl

/-- C6.  `recv` blocks until the engine has produced an output value and
returns the first one; when the output channel is exhausted and the engine
has halted it fails with the `RecvError` (the spec's `ProducerHalted`)
instead of hanging forever. -/
theorem recv_contract (fuel : Nat) (c c2 : Comp)
    (hp : pump fuel c = some c2) :
    (∀ v rest, c2.outQ = v :: rest →
      recv2C fuel c = some ({ c2 with outQ := rest }, RecvOutcome.value v)) ∧
    (c2.outQ = [] → c2.done = true →
      recv2C fuel c = some (c2, RecvOutcome.producerHalted)) := by
  constructor
  · intro v rest hq
    simp [recv2C, hp, hq]
  · intro hq hdone
    simp [recv2C, hp, hq, hdone]

/-- C6 witness: the instance of `104,7,99` yields its single output value
7, and once drained and halted the next `recv` fails with
`ProducerHalted`. -/
theorem recv_contract_witness :
    recv2C 10 (mkComp [104, 7, 99]) =
      some (compQuickDrained, RecvOutcome.value 7) ∧
    recv2C 10 compQuickDrained = some (compQuickDrained, RecvOutcome.producerHalted) := by
  constructor
  · exact (recv_contract 10 (mkComp [104, 7, 99]) compQuick (by decide)).1 7 [] rfl
  · exact (recv_contract 10 compQuickDrained compQuickDrained (by decide)).2 rfl rfl

theorem poll_sets_flag (h : WaitHandle) (hp : (waiting_on_input h).1 = true) :
    (waiting_on_input h).2.flag = true := by
  by_cases hf : h.flag
  · simp [waiting_on_input, hf]
  · cases hq : h.waitQ with
    | nil => simp [waiting_on_input, hf, hq] at hp
    | cons x rest => simp [waiting_on_input, hf, hq]

theorem applyWaitOps_keeps_flag (ops : List WaitOp) (h : WaitHandle)
    (hf : h.flag = true) : (applyWaitOps ops h).flag = true := by
  induction ops generalizing h with
  | nil => simpa [applyWaitOps] using hf
  | cons op rest ih =>
    cases op with
    | poll =>
      have heq : (waiting_on_input h).2 = h := by simp [waiting_on_input, hf]
      simpa [applyWaitOps, heq] using ih h hf
    | note => exact ih _ (by simpa [noteW] using hf)

/-- C7.  `waiting_on_input()` is non-blocking and sticky: once a poll has
returned `true`, every later poll returns `true` no matter how many polls
and engine notifications happen in between, until a `send` resets the
sticky flag; right after a `send` a poll returns `false` when no
notification is available on the wait channel, and returns `true` again as
soon as one is there to be observed. -/
theorem waiting_on_input_contract (h : WaitHandle) :
    ((waiting_on_input h).1 = true →
      ∀ ops : List WaitOp,
        (waiting_on_input (applyWaitOps ops (waiting_on_input h).2)).1 = true) ∧
    (sendW h).flag = false ∧
    (h.waitQ = [] → waiting_on_input (sendW h) = (false, sendW h)) ∧
    (∀ x rest, h.waitQ = x :: rest → (waiting_on_input (sendW h)).1 = true) := by
  refine ⟨?_, rfl, ?_, ?_⟩
  · intro hp ops
    have h1f : (waiting_on_input h).2.flag = true := poll_sets_flag h hp
    have hall : (applyWaitOps ops (waiting_on_input h).2).flag = true :=
      applyWaitOps_keeps_flag ops _ h1f
    set g := applyWaitOps ops (waiting_on_input h).2 with hg
    simp [waiting_on_input, hall]
  · intro hq
    simp [waiting_on_input, sendW, hq]
  · intro x rest hq
    simp [waiting_on_input, sendW, hq]

/-- C7 witness: a handle with the sticky flag clear and one pending
notification: the first poll observes it (true), a second poll is still
true (sticky); after a send the flag is clear and, the queue now being
empty, a poll returns false. -/
theorem waiting_on_input_contract_witness :
    (waiting_on_input (⟨false, [0]⟩ : WaitHandle)).1 = true ∧
    (waiting_on_input
      (applyWaitOps [WaitOp.poll] (waiting_on_input (⟨false, [0]⟩ : WaitHandle)).2)).1 = true ∧
    waiting_on_input (sendW (⟨false, []⟩ : WaitHandle)) =
      (false, sendW (⟨false, []⟩ : WaitHandle)) ∧
    (waiting_on_input (sendW (⟨false, [0]⟩ : WaitHandle))).1 = true := by
  refine ⟨by decide, ?_, ?_, ?_⟩
  · exact (waiting_on_input_contract ⟨false, [0]⟩).1 (by decide) [WaitOp.poll]
  · exact (waiting_on_input_contract ⟨false, []⟩).2.2.1 rfl
  · exact (waiting_on_input_contract ⟨false, [0]⟩).2.2.2 0 [] rfl

theorem stepVM_true_evs (s : VMState) (ins : List Int) (res : StepRes)
    (h : stepVM true s ins = some res) :
    (∃ s2 ins2, res = StepRes.next s2 ins2 []) ∨
    (∃ s2 ins2 v, res = StepRes.next s2 ins2 [Ev.output v]) ∨
    (∃ s2 ins2 v, res = StepRes.next s2 ins2 [Ev.waitNote, Ev.consume v]) ∨
    (∃ m, res = StepRes.halted m [Ev.haltNote]) ∨
    res = StepRes.blocked [Ev.waitNote] := by
  unfold stepVM at h
  cases hw : s.mem.read s.ip with
  | none => rw [hw] at h; simp at h
  | some w =>
  rw [hw] at h
  try dsimp only at h
  cases hm : instrModes w with
  | none => rw [hm] at h; simp at h
  | some pm =>
  rw [hm] at h
  try dsimp only at h
  by_cases k1 : instrOpcode w = 1
  · rw [if_pos k1] at h
    repeat' split at h
    all_goals (try cases h)
    all_goals
      first
      | exact Or.inl ⟨_, _, rfl⟩
      | exact Or.inr (Or.inl ⟨_, _, _, rfl⟩)
      | exact Or.inr (Or.inr (Or.inl ⟨_, _, _, rfl⟩))
      | exact Or.inr (Or.inr (Or.inr (Or.inl ⟨_, rfl⟩)))
      | exact Or.inr (Or.inr (Or.inr (Or.inr rfl)))
      | simp_all
  rw [if_neg k1] at h
  by_cases k2 : instrOpcode w = 2
  · rw [if_pos k2] at h
    repeat' split at h
    all_goals (try cases h)
    all_goals
      first
      | exact Or.inl ⟨_, _, rfl⟩
      | exact Or.inr (Or.inl ⟨_, _, _, rfl⟩)
      | exact Or.inr (Or.inr (Or.inl ⟨_, _, _, rfl⟩))
      | exact Or.inr (Or.inr (Or.inr (Or.inl ⟨_, rfl⟩)))
      | exact Or.inr (Or.inr (Or.inr (Or.inr rfl)))
      | simp_all
  rw [if_neg k2] at h
  by_cases k3 : instrOpcode w = 3
  · rw [if_pos k3] at h
    repeat' split at h
    all_goals (try cases h)
    all_goals
      first
      | exact Or.inl ⟨_, _, rfl⟩
      | exact Or.inr (Or.inl ⟨_, _, _, rfl⟩)
      | exact Or.inr (Or.inr (Or.inl ⟨_, _, _, rfl⟩))
      | exact Or.inr (Or.inr (Or.inr (Or.inl ⟨_, rfl⟩)))
      | exact Or.inr (Or.inr (Or.inr (Or.inr rfl)))
      | simp_all
  rw [if_neg k3] at h
  by_cases k4 : instrOpcode w = 4
  · rw [if_pos k4] at h
    repeat' split at h
    all_goals (try cases h)
    all_goals
      first
      | exact Or.inl ⟨_, _, rfl⟩
      | exact Or.inr (Or.inl ⟨_, _, _, rfl⟩)
      | exact Or.inr (Or.inr (Or.inl ⟨_, _, _, rfl⟩))
      | exact Or.inr (Or.inr (Or.inr (Or.inl ⟨_, rfl⟩)))
      | exact Or.inr (Or.inr (Or.inr (Or.inr rfl)))
      | simp_all
  rw [if_neg k4] at h
  by_cases k5 : instrOpcode w = 5
  · rw [if_pos k5] at h
    repeat' split at h
    all_goals (try cases h)
    all_goals
      first
      | exact Or.inl ⟨_, _, rfl⟩
      | exact Or.inr (Or.inl ⟨_, _, _, rfl⟩)
      | exact Or.inr (Or.inr (Or.inl ⟨_, _, _, rfl⟩))
      | exact Or.inr (Or.inr (Or.inr (Or.inl ⟨_, rfl⟩)))
      | exact Or.inr (Or.inr (Or.inr (Or.inr rfl)))
      | simp_all
  rw [if_neg k5] at h
  by_cases k6 : instrOpcode w = 6
  · rw [if_pos k6] at h
    repeat' split at h
    all_goals (try cases h)
    all_goals
      first
      | exact Or.inl ⟨_, _, rfl⟩
      | exact Or.inr (Or.inl ⟨_, _, _, rfl⟩)
      | exact Or.inr (Or.inr (Or.inl ⟨_, _, _, rfl⟩))
      | exact Or.inr (Or.inr (Or.inr (Or.inl ⟨_, rfl⟩)))
      | exact Or.inr (Or.inr (Or.inr (Or.inr rfl)))
      | simp_all
  rw [if_neg k6] at h
  by_cases k7 : instrOpcode w = 7
  · rw [if_pos k7] at h
    repeat' split at h
    all_goals (try cases h)
    all_goals
      first
      | exact Or.inl ⟨_, _, rfl⟩
      | exact Or.inr (Or.inl ⟨_, _, _, rfl⟩)
      | exact Or.inr (Or.inr (Or.inl ⟨_, _, _, rfl⟩))
      | exact Or.inr (Or.inr (Or.inr (Or.inl ⟨_, rfl⟩)))
      | exact Or.inr (Or.inr (Or.inr (Or.inr rfl)))
      | simp_all
  rw [if_neg k7] at h
  by_cases k8 : instrOpcode w = 8
  · rw [if_pos k8] at h
    repeat' split at h
    all_goals (try cases h)
    all_goals
      first
      | exact Or.inl ⟨_, _, rfl⟩
      | exact Or.inr (Or.inl ⟨_, _, _, rfl⟩)
      | exact Or.inr (Or.inr (Or.inl ⟨_, _, _, rfl⟩))
      | exact Or.inr (Or.inr (Or.inr (Or.inl ⟨_, rfl⟩)))
      | exact Or.inr (Or.inr (Or.inr (Or.inr rfl)))
      | simp_all
  rw [if_neg k8] at h
  by_cases k9 : instrOpcode w = 9
  · rw [if_pos k9] at h
    repeat' split at h
    all_goals (try cases h)
    all_goals
      first
      | exact Or.inl ⟨_, _, rfl⟩
      | exact Or.inr (Or.inl ⟨_, _, _, rfl⟩)
      | exact Or.inr (Or.inr (Or.inl ⟨_, _, _, rfl⟩))
      | exact Or.inr (Or.inr (Or.inr (Or.inl ⟨_, rfl⟩)))
      | exact Or.inr (Or.inr (Or.inr (Or.inr rfl)))
      | simp_all
  rw [if_neg k9] at h
  by_cases k99 : instrOpcode w = 99
  · rw [if_pos k99] at h
    cases h
    exact Or.inr (Or.inr (Or.inr (Or.inl ⟨_, rfl⟩)))
  rw [if_neg k99] at h
  cases h

/-- C8.  In every trace of the day15.rs engine, each execution of opcode 3
sends a blocked-on-input notification before attempting to receive, so a
notification immediately precedes every input consumption. -/
theorem notification_precedes_consumption (fuel : Nat) (s : VMState)
    (ins : List Int) (r : RunRes) (h : runVM true fuel s ins = some r) :
    goodTrace r.evs = true := by
  induction fuel generalizing s ins r with
  | zero =>
    simp only [runVM, Option.some.injEq] at h
    rw [← h]
    rfl
  | succ fuel ih =>
    unfold runVM at h
    cases hst : stepVM true s ins with
    | none => rw [hst] at h; simp at h
    | some sres =>
      rw [hst] at h
      try dsimp only at h
      rcases stepVM_true_evs s ins sres hst with
        ⟨s2, ins2, rfl⟩ | ⟨s2, ins2, v, rfl⟩ | ⟨s2, ins2, v, rfl⟩ | ⟨m, rfl⟩ | rfl
      · try dsimp only at h
        cases hr : runVM true fuel s2 ins2 with
        | none => rw [hr] at h; simp at h
        | some r2 =>
          rw [hr] at h
          try dsimp only at h
          injection h with h2
          subst h2
          simpa [goodTrace] using ih s2 ins2 r2 hr
      · try dsimp only at h
        cases hr : runVM true fuel s2 ins2 with
        | none => rw [hr] at h; simp at h
        | some r2 =>
          rw [hr] at h
          try dsimp only at h
          injection h with h2
          subst h2
          simpa [goodTrace] using ih s2 ins2 r2 hr
      · try dsimp only at h
        cases hr : runVM true fuel s2 ins2 with
        | none => rw [hr] at h; simp at h
        | some r2 =>
          rw [hr] at h
          try dsimp only at h
          injection h with h2
          subst h2
          simpa [goodTrace] using ih s2 ins2 r2 hr
      · cases h; rfl
      · cases h; rfl

/-- C8 witness: the engine of `3,0,99` with input queue `[5]` produces the
trace notify, consume 5, halt-note, in which the notification precedes the
consumption. -/
theorem notification_precedes_consumption_witness :
    goodTrace runWait99.evs = true :=
  notification_precedes_consumption 10 (initVM [3, 0, 99]) [5] runWait99
    (by decide)


theorem Mode4.set_eq_setT (a : Mode4) (i : Nat) (m : ParameterMode) (hi : i < 4) :
    a.set i m = some (a.setT i m) := by
  interval_cases i <;> rfl

theorem Mode4.get_setT (a : Mode4) (i j : Nat) (m : ParameterMode)
    (hi : i < 4) (hj : j < 4) :
    (a.setT i m).get j = if j = i then m else a.get j := by
  interval_cases i <;> interval_cases j <;> simp [Mode4.setT, Mode4.get]

theorem Mode4.setT_get_self (a : Mode4) (i : Nat) (hi : i < 4) :
    a.setT i (a.get i) = a := by
  interval_cases i <;> rfl

theorem Mode4.default_get (j : Nat) (hj : j < 4) :
    Mode4.default.get j = ParameterMode.positionMode := by
  interval_cases j <;> rfl

theorem digModeUpd_pos (d : Nat) :
    digModeUpd d ParameterMode.positionMode = digMode d := by
  unfold digModeUpd digMode
  split_ifs <;> first | rfl | omega

theorem Mode4.ext_get (a b : Mode4) (h : ∀ j, j < 4 → a.get j = b.get j) :
    a = b := by
  obtain ⟨a0, a1, a2, a3⟩ := a
  obtain ⟨b0, b1, b2, b3⟩ := b
  have h0 := h 0 (by omega)
  have h1 := h 1 (by omega)
  have h2 := h 2 (by omega)
  have h3 := h 3 (by omega)
  simp [Mode4.get] at h0 h1 h2 h3
  subst h0; subst h1; subst h2; subst h3
  rfl


theorem modesLoop_spec (fuel : Nat) :
    ∀ (t i : Nat) (arr : Mode4), t ≤ fuel → t < 10 ^ (4 - i) →
    ∃ arr2, modesLoop fuel t i arr = some arr2 ∧
      ∀ j, j < 4 → arr2.get j =
        if j < i then arr.get j
        else if t / 10 ^ (j - i) = 0 then arr.get j
        else digModeUpd (t / 10 ^ (j - i) % 10) (arr.get j) := by
  induction fuel with
  | zero =>
    intro t i arr htf htb
    have ht : t = 0 := by omega
    subst ht
    refine ⟨arr, rfl, ?_⟩
    intro j hj
    simp [Nat.zero_div]
  | succ fuel ih =>
    intro t i arr htf htb
    by_cases ht : t = 0
    · subst ht
      refine ⟨arr, by simp [modesLoop], ?_⟩
      intro j hj
      simp [Nat.zero_div]
    · have hi : i < 4 := by
        by_contra hge
        push_neg at hge
        have h40 : 4 - i = 0 := by omega
        rw [h40, pow_zero] at htb
        omega
      have hstep :
          (if t % 10 = 0 then Mode4.set arr i ParameterMode.positionMode
           else if t % 10 = 1 then Mode4.set arr i ParameterMode.immediateMode
           else if t % 10 = 2 then Mode4.set arr i ParameterMode.relativeMode
           else some arr) =
          some (arr.setT i (digModeUpd (t % 10) (arr.get i))) := by
        by_cases h0 : t % 10 = 0
        · simp [h0, Mode4.set_eq_setT arr i _ hi, digModeUpd]
        · by_cases h1 : t % 10 = 1
          · simp [h0, h1, Mode4.set_eq_setT arr i _ hi, digModeUpd]
          · by_cases h2 : t % 10 = 2
            · simp [h0, h1, h2, Mode4.set_eq_setT arr i _ hi, digModeUpd]
            · simp [h0, h1, h2, digModeUpd, Mode4.setT_get_self arr i hi]
      have hrec1 : t / 10 ≤ fuel := by
        have := Nat.div_lt_self (Nat.pos_of_ne_zero ht) (by omega : (1:Nat) < 10)
        omega
      have hrec2 : t / 10 < 10 ^ (4 - (i + 1)) := by
        have hexp : 4 - i = (4 - (i + 1)) + 1 := by omega
        rw [hexp, pow_succ, mul_comm] at htb
        exact Nat.div_lt_of_lt_mul htb
      obtain ⟨arr2, hrun, hchar⟩ :=
        ih (t / 10) (i + 1) (arr.setT i (digModeUpd (t % 10) (arr.get i))) hrec1 hrec2
      refine ⟨arr2, ?_, ?_⟩
      · rw [modesLoop, if_neg ht, hstep]
        exact hrun
      · intro j hj
        rw [hchar j hj]
        rcases Nat.lt_trichotomy j i with hji | hji | hji
        · have hj1 : j < i + 1 := by omega
          rw [if_pos hj1, if_pos hji, Mode4.get_setT arr i j _ hi hj,
            if_neg (by omega : ¬ j = i)]
        · subst hji
          have hj1 : j < j + 1 := by omega
          rw [if_pos hj1, Mode4.get_setT arr j j _ hi hj, if_pos rfl,
            if_neg (by omega : ¬ j < j)]
          have hz : j - j = 0 := by omega
          rw [hz, pow_zero, Nat.div_one, if_neg ht]
        · have hj1 : ¬ j < i + 1 := by omega
          have hj2 : ¬ j < i := by omega
          rw [if_neg hj1, if_neg hj2, Mode4.get_setT arr i j _ hi hj,
            if_neg (by omega : ¬ j = i)]
          have hdd : t / 10 / 10 ^ (j - (i + 1)) = t / 10 ^ (j - i) := by
            rw [Nat.div_div_eq_div_mul]
            congr 1
            have hji2 : j - i = (j - (i + 1)) + 1 := by omega
            rw [hji2, pow_succ]
            ring
          rw [hdd]


theorem decode_char (s : Int) (h0 : 0 ≤ s) (hs : s < 10000) :
    ∃ m, get_parameter_modes_from_opcode s = some m ∧
      ∀ j, j < 4 → m.get j = digMode (s.toNat / 10 ^ j % 10) := by
  by_cases hpos : s > 0
  · have htb : s.toNat < 10 ^ (4 - 0) := by norm_num; omega
    obtain ⟨arr2, hrun, hchar⟩ :=
      modesLoop_spec s.toNat s.toNat 0 Mode4.default le_rfl htb
    refine ⟨arr2, ?_, ?_⟩
    · rw [get_parameter_modes_from_opcode, if_pos hpos]
      exact hrun
    · intro j hj
      rw [hchar j hj, Mode4.default_get j hj]
      by_cases hz : s.toNat / 10 ^ (j - 0) = 0
      · rw [if_neg (by omega : ¬ j < 0), if_pos hz]
        rw [Nat.sub_zero] at hz
        rw [hz]
        rfl
      · rw [if_neg (by omega : ¬ j < 0), if_neg hz, Nat.sub_zero,
          digModeUpd_pos]
  · have hz : s = 0 := by omega
    subst hz
    refine ⟨Mode4.default, by rw [get_parameter_modes_from_opcode, if_neg (by omega)], ?_⟩
    intro j hj
    rw [Mode4.default_get j hj]
    simp [digMode]

theorem digit_zeroed (n j k : Nat) (hn : n < 10000) (hj : j < 4) (hk : k < 4) :
    (n - n / 10 ^ j % 10 * 10 ^ j) / 10 ^ k % 10 =
      if k = j then 0 else n / 10 ^ k % 10 := by
  interval_cases j <;> interval_cases k <;> norm_num <;> omega


theorem decode_char_nat (n : Nat) (hn : n < 10000) :
    ∃ m, get_parameter_modes_from_opcode ((n : Int)) = some m ∧
      ∀ j, j < 4 → m.get j = digMode (n / 10 ^ j % 10) := by
  obtain ⟨m, hm, hchar⟩ :=
    decode_char ((n : Int)) (by omega) (by exact_mod_cast hn)
  exact ⟨m, hm, fun j hj => hchar j hj⟩

/-- C2, counterexample.  The decoder does not handle every non-negative
instruction word: on the word 1000000 (mode section `10000`, five digits)
the loop reaches slot index 4 with digit 1 and the indexed array write is
out of bounds — the engine panics instead of producing parameter modes. -/
theorem decode_word_overflow : instrModes 1000000 = none := by decide

/-- C2 as amended.  For every non-negative instruction word below
1000000 (whose mode section fits the four parameter-mode slots), the
opcode is the word's last two decimal digits (`word % 100`) and the
decoder succeeds, and slot `j` holds the mode denoted by the `j`-th
decimal digit of `word / 100`, read right-to-left: digit 1 is Immediate,
digit 2 is Relative, digit 0 and every digit past the end of the number
(an untouched slot) give Position. -/
theorem decode_instruction (w : Int) (h0 : 0 ≤ w) (hw : w < 1000000) :
    instrOpcode w = ((w.toNat % 100 : Nat) : Int) ∧
    ∃ m, instrModes w = some m ∧
      ∀ j, j < 4 → m.get j = digMode ((Int.tdiv w 100).toNat / 10 ^ j % 10) := by
  obtain ⟨n, rfl⟩ := Int.eq_ofNat_of_zero_le h0
  have hn : n < 1000000 := by exact_mod_cast hw
  refine ⟨rfl, ?_⟩
  obtain ⟨m, hm, hchar⟩ := decode_char_nat (n / 100) (by omega)
  exact ⟨m, hm, fun j hj => hchar j hj⟩

/-- C2 witness: the instruction word 21002 (opcode 2, mode digits 0, 1, 2)
decodes to modes Position, Immediate, Relative, Position. -/
theorem decode_instruction_witness :
    instrOpcode 21002 = ((Int.toNat 21002 % 100 : Nat) : Int) ∧
    ∃ m, instrModes 21002 = some m ∧
      ∀ j, j < 4 →
        m.get j = digMode ((Int.tdiv 21002 100).toNat / 10 ^ j % 10) :=
  decode_instruction 21002 (by decide) (by decide)

/-- C10.  A mode digit of 3 through 9 in the scaled opcode is silently
treated as Position: the decoder succeeds, leaves that slot at Position,
and returns exactly what it returns when the digit is replaced by 0. -/
theorem unknown_mode_digit (s : Int) (h0 : 0 ≤ s) (hs : s < 10000)
    (j : Nat) (hj : j < 4) (hd : 3 ≤ s.toNat / 10 ^ j % 10) :
    ∃ m, get_parameter_modes_from_opcode s = some m ∧
      m.get j = ParameterMode.positionMode ∧
      get_parameter_modes_from_opcode s =
        get_parameter_modes_from_opcode
          (s - ((s.toNat / 10 ^ j % 10 * 10 ^ j : Nat) : Int)) := by
  obtain ⟨n, rfl⟩ := Int.eq_ofNat_of_zero_le h0
  have hn : n < 10000 := by exact_mod_cast hs
  have hd2 : 3 ≤ n / 10 ^ j % 10 := hd
  have hle : n / 10 ^ j % 10 * 10 ^ j ≤ n := by
    interval_cases j <;> omega
  have hsub : (n : Int) - ((n / 10 ^ j % 10 * 10 ^ j : Nat) : Int) =
      ((n - n / 10 ^ j % 10 * 10 ^ j : Nat) : Int) := by omega
  obtain ⟨m, hm, hchar⟩ := decode_char_nat n hn
  obtain ⟨m2, hm2, hchar2⟩ :=
    decode_char_nat (n - n / 10 ^ j % 10 * 10 ^ j) (by omega)
  refine ⟨m, hm, ?_, ?_⟩
  · rw [hchar j hj]
    have h1 : ¬ n / 10 ^ j % 10 = 1 := by omega
    have h2 : ¬ n / 10 ^ j % 10 = 2 := by omega
    unfold digMode
    rw [if_neg h1, if_neg h2]
  · show get_parameter_modes_from_opcode ((n : Int)) =
      get_parameter_modes_from_opcode
        ((n : Int) - ((n / 10 ^ j % 10 * 10 ^ j : Nat) : Int))
    rw [hsub, hm, hm2]
    congr 1
    apply Mode4.ext_get
    intro k hk
    rw [hchar k hk, hchar2 k hk, digit_zeroed n j k hn hj hk]
    by_cases hkj : k = j
    · rw [if_pos hkj]
      subst hkj
      have h1 : ¬ n / 10 ^ k % 10 = 1 := by omega
      have h2 : ¬ n / 10 ^ k % 10 = 2 := by omega
      simp [digMode, h1, h2]
    · rw [if_neg hkj]

/-- C10 witness: in the scaled opcode 3012 the fourth mode digit is 3; the
decoder yields Position for that slot and agrees with the decode of 12
(the digit replaced by 0). -/
theorem unknown_mode_digit_witness :
    ∃ m, get_parameter_modes_from_opcode 3012 = some m ∧
      m.get 3 = ParameterMode.positionMode ∧
      get_parameter_modes_from_opcode 3012 =
        get_parameter_modes_from_opcode
          (3012 - ((Int.toNat 3012 / 10 ^ 3 % 10 * 10 ^ 3 : Nat) : Int)) :=
  unknown_mode_digit 3012 (by decide) (by decide) 3 (by decide) (by decide)

end AoC2019
